import Mathlib

/-!
pgxdb: metadata-driven statement builder and notification listener

A shallow embedding of `pgxdb/string.go`, `pgxdb/db.go` and `pgxdb/listen.go`.

* Go strings are Lean strings, `+` is `++`, `==` is string equality.
* A `[]string` is `StrSlice`: `none` is the nil slice, `some xs` a non-nil
  slice with elements `xs`.
* A value handed to `reflect.ValueOf` is a `Value`: what `Fields` and `DBTags`
  read from it is its kind, the descriptors of its struct fields (declared
  name, `db` tag, `gorm` tag) or the keys of its map.
* The execution collaborator (`sqlx.Ext`) is a pair of functions, one per
  entry point the code calls (`sqlx.NamedQuery`, `sqlx.NamedExec`).
* A Go function that may panic returns an `Outcome`.
* `int64` arithmetic wraps (`wrapInt64`).
* The `fmt.Printf` / `fmt.Println` trace lines are diagnostics and are left out.
* The listener's connection (`pgxpool.Conn`) is the error of its `Exec` and the
  outcome of each successive `WaitForNotification` call; the `for` loop of
  `ListenDBEvents` has no exit but a failed wait, so it runs on fuel.
-/

set_option autoImplicit false

namespace pgxdb

/-! ## Data model -/

/-- A Go `[]string`; `none` is the nil slice. -/
abbrev StrSlice := Option (List String)

/-- The elements of a slice; the nil slice has length 0. -/
def StrSlice.elems : StrSlice → List String
  | none => []
  | some xs => xs

/-- One struct field as `reflect` shows it: `field.Name`, `field.Tag.Get("db")`,
`field.Tag.Get("gorm")`. A tag that is absent reads as the empty string. -/
structure Field where
  name : String
  db : String
  gorm : String
  deriving DecidableEq, Repr

/-- What `reflect.ValueOf` sees.
`struct` carries the fields in declaration order; `map` carries the keys in the
order `MapKeys` yields them, each as `String()` renders it; `ptr` is a non-nil
pointer, `nilPtr` a nil one; `other` is any other kind, named as
`Kind().String()` names it. -/
inductive Value where
  | struct (fields : List Field)
  | map (keys : List String)
  | ptr (elem : Value)
  | nilPtr
  | other (kind : String)
  deriving DecidableEq, Repr

/-- `v.Kind().String()`. -/
def Value.kind : Value → String
  | .struct _ => "struct"
  | .map _ => "map"
  | .ptr _ => "ptr"
  | .nilPtr => "ptr"
  | .other k => k

/-- The first lines of `Fields` and `DBTags`:
`if v.Kind() == reflect.Ptr { v = v.Elem() }`. `Elem` of a nil pointer is the
zero `reflect.Value`, whose kind is `invalid`. One level only. -/
def Value.deref : Value → Value
  | .ptr e => e
  | .nilPtr => .other "invalid"
  | v => v

/-- The errors the package builds with `fmt.Errorf`, and the error of the
execution collaborator (carried as its message). -/
inductive DBError where
  /-- `Fields Primary key not found! Struct: %v` -/
  | fieldsPrimaryKeyNotFound
  /-- `DBTags Primary key not found! Struct: %v, fields: %v` -/
  | dbTagsPrimaryKeyNotFound
  /-- `DBTags requires a struct, found: %s` -/
  | dbTagsRequiresStruct (kind : String)
  /-- the error `sqlx.NamedQuery` / `sqlx.NamedExec` returned -/
  | exec (msg : String)
  /-- `insert rowsaffected Error: %v` -/
  | insertRowsAffected
  /-- `update rowsaffected Error: %v`, with the error of `RowsAffected()` if any -/
  | updateRowsAffected (inner : Option String)
  deriving DecidableEq, Repr

/-- A Go call either returns or panics (`panic(fmt.Errorf(...))`). -/
inductive Outcome (α : Type) where
  | returns (a : α)
  | panics (err : String)
  deriving DecidableEq, Repr

/-! ## string.go -/

/-- The `for _, n := range a` loop of `SliceContains`. -/
def SliceContains.loop (x : String) : List String → Bool
  | [] => false
  | n :: rest => if x == n then true else SliceContains.loop x rest

/-- `func SliceContains(a []string, x string) bool`. -/
def SliceContains (a : StrSlice) (x : String) : Bool :=
  match a with
  | none => false
  | some xs => SliceContains.loop x xs

/-! ## db.go: metadata extraction -/

/-- The loop of `DBTags` over the fields, on the state `(primaryKey, fields)`. -/
def DBTags.loop (fieldNames : StrSlice) : List Field → String × List String → String × List String
  | [], st => st
  | field :: rest, (primaryKey, fields) =>
    let dbName := field.db
    let gorm := field.gorm
    let primaryKey := if field.name == "ID" || gorm == "primary_key" then dbName else primaryKey
    let fields := if SliceContains fieldNames field.name then fields ++ [dbName] else fields
    DBTags.loop fieldNames rest (primaryKey, fields)

/-- `func DBTags(s interface{}, fieldNames []string) ([]string, string, error)`. -/
def DBTags (s : Value) (fieldNames : StrSlice) : StrSlice × String × Option DBError :=
  match s.deref with
  | .struct fs =>
    let (primaryKey, fields) := DBTags.loop fieldNames fs ("", [])
    if primaryKey == "" then
      (none, "", some .dbTagsPrimaryKeyNotFound)
    else
      (some fields, primaryKey, none)
  | v => (none, "", some (.dbTagsRequiresStruct v.kind))

/-- The struct loop of `Fields`, on the state `(primaryKey, fields)`. -/
def Fields.loop (skip : StrSlice) : List Field → String × List String → String × List String
  | [], st => st
  | field :: rest, (primaryKey, fields) =>
    let dbName := field.db
    let gorm := field.gorm
    let primaryKey := if field.name == "ID" || gorm == "primary_key" then dbName else primaryKey
    let fields := if dbName != "" && !SliceContains skip dbName then fields ++ [dbName] else fields
    Fields.loop skip rest (primaryKey, fields)

/-- The map loop of `Fields`: `for _, keyv := range v.MapKeys()`. -/
def Fields.mapLoop : List String → List String → List String
  | [], fields => fields
  | keyv :: rest, fields => Fields.mapLoop rest (fields ++ [keyv])

/-- `func Fields(values interface{}, skip []string) ([]string, string, error)`. -/
def Fields (values : Value) (skip : StrSlice) : Outcome (StrSlice × String × Option DBError) :=
  match values.deref with
  | .struct fs =>
    let (primaryKey, fields) := Fields.loop skip fs ("", [])
    if primaryKey == "" then
      .returns (none, "", some .fieldsPrimaryKeyNotFound)
    else
      .returns (some fields, primaryKey, none)
  | .map keys => .returns (some (Fields.mapLoop keys []), "", none)
  | v => .panics ("Fields requires a struct or a map, found: " ++ v.kind)

/-! ## db.go: rendering -/

/-- The loop of `fieldsCSV`; `i` is the index of the head of the remaining fields. -/
def fieldsCSV.loop (colon escape : Bool) : List String → Nat → String → String
  | [], _, result => result
  | field :: rest, i, result =>
    let result := if i > 0 then result ++ ", " else result
    let result := if colon then result ++ ":" else result
    let result := if escape then result ++ ("\"" ++ field ++ "\"") else result ++ field
    fieldsCSV.loop colon escape rest (i + 1) result

/-- `func fieldsCSV(fields []string, colon bool, escape bool) string`. -/
def fieldsCSV (fields : List String) (colon escape : Bool) : String :=
  fieldsCSV.loop colon escape fields 0 ""

/-- `func FieldsCSV(fields []string) string`. -/
def FieldsCSV (fields : List String) : String :=
  fieldsCSV fields false true

/-- `func FieldsCSVColon(fields []string) string`. -/
def FieldsCSVColon (fields : List String) : String :=
  fieldsCSV fields true false

/-- The loop of `FieldsSet`; `i` is the index of the head of the remaining fields. -/
def FieldsSet.loop : List String → Nat → String → String
  | [], _, result => result
  | field :: rest, i, result =>
    let result := if i > 0 then result ++ ", " else result
    let result := result ++ (field ++ " = :" ++ field)
    FieldsSet.loop rest (i + 1) result

/-- `func FieldsSet(fields []string) string`. -/
def FieldsSet (fields : List String) : String :=
  FieldsSet.loop fields 0 ""

/-! ## db.go: executors -/

/-- The `Entity` interface: `TableName()` and the value `reflect` inspects. -/
structure Entity where
  tableName : String
  value : Value
  deriving DecidableEq, Repr

/-- `type InsertResult struct { lastID int64; rowsAffected int64 }`. -/
structure InsertResult where
  lastID : Int
  rowsAffected : Int
  deriving DecidableEq, Repr

/-- `func (r *InsertResult) LastInsertId() (int64, error)`. -/
def InsertResult.LastInsertId (r : InsertResult) : Int × Option DBError :=
  (r.lastID, none)

/-- `func (r *InsertResult) RowsAffected() (int64, error)`. -/
def InsertResult.RowsAffected (r : InsertResult) : Int × Option DBError :=
  (r.rowsAffected, none)

/-- The `sql.Result` that `sqlx.NamedExec` hands back: what its `RowsAffected()`
returns, an error or a count. (`update` reads the count only when the error is
nil.) -/
structure ExecResult where
  rowsAffected : Except String Int
  deriving Repr

/-- The execution collaborator `sqlx.Ext`, by the two entry points used.
`namedQuery sql e` is `sqlx.NamedQuery(db, sql, e)`: an error, or the rows that
`rows.Next()` steps through; a row is `some id` when `rows.Scan` stores `id`
in its destination and `none` when `Scan` fails and leaves it as it was.
`namedExec sql e` is `sqlx.NamedExec(db, sql, e)`. -/
structure Ext where
  namedQuery : String → Entity → Except String (List (Option Int))
  namedExec : String → Entity → Except String ExecResult

/-- What a call of `insert` or `update` did and returned: the statements it
handed to the execution collaborator, in order, and the returned
`(sql.Result, error)` pair (`none` is nil). -/
structure Call (ρ : Type) where
  executed : List String
  result : Option ρ
  err : Option DBError

/-- The value of an `int64` after arithmetic on it: two's complement wrap-around. -/
def wrapInt64 (x : Int) : Int :=
  (x + 2 ^ 63) % 2 ^ 64 - 2 ^ 63

/-- The `for rows.Next()` loop of `insert`, on the state `(r.lastID, total)`. -/
def insert.loop : List (Option Int) → Int × Int → Int × Int
  | [], st => st
  | row :: rest, (lastID, total) =>
    let lastID := match row with
      | some id => id
      | none => lastID
    insert.loop rest (lastID, wrapInt64 (total + 1))

/-- `func insert(db sqlx.Ext, e Entity, skip []string) (sql.Result, error)`. -/
def insert (db : Ext) (e : Entity) (skip : StrSlice) : Outcome (Call InsertResult) :=
  match Fields e.value skip with
  | .panics p => .panics p
  | .returns (_, _, some err) => .returns { executed := [], result := none, err := some err }
  | .returns (fields, key, none) =>
    let csv := FieldsCSV fields.elems
    let csvc := FieldsCSVColon fields.elems
    let sql := "INSERT INTO " ++ e.tableName ++ " (" ++ csv ++ ") VALUES (" ++ csvc ++ ") RETURNING " ++ key
    match db.namedQuery sql e with
    | .error msg =>
      .returns { executed := [sql], result := some { lastID := 0, rowsAffected := 0 }, err := some (.exec msg) }
    | .ok rows =>
      let (lastID, total) := insert.loop rows (0, 0)
      let r : InsertResult := { lastID := lastID, rowsAffected := total }
      let (count, err) := r.RowsAffected
      if count ≤ 0 || err.isSome then
        .returns { executed := [sql], result := some r, err := some .insertRowsAffected }
      else
        .returns { executed := [sql], result := some r, err := none }

/-- `func update(db sqlx.Ext, e Entity, fields []string) (sql.Result, error)`. -/
def update (db : Ext) (e : Entity) (fields : StrSlice) : Outcome (Call ExecResult) :=
  match DBTags e.value fields with
  | (_, _, some err) => .returns { executed := [], result := none, err := some err }
  | (dbFields, key, none) =>
    let set := FieldsSet dbFields.elems
    let sql := "UPDATE " ++ e.tableName ++ " set " ++ set ++ " where " ++ key ++ " = :" ++ key
    match db.namedExec sql e with
    | .error msg => .returns { executed := [sql], result := none, err := some (.exec msg) }
    | .ok r =>
      match r.rowsAffected with
      | .error m => .returns { executed := [sql], result := some r, err := some (.updateRowsAffected (some m)) }
      | .ok count =>
        if count ≤ 0 then
          .returns { executed := [sql], result := some r, err := some (.updateRowsAffected none) }
        else
          .returns { executed := [sql], result := some r, err := none }

/-! ## listen.go -/

/-- A `pgconn.Notification`: `PID`, `Channel`, `Payload`. -/
structure Notification where
  PID : Nat
  Channel : String
  Payload : String
  deriving DecidableEq, Repr

/-- The error a `WaitForNotification(ctx)` call returns: `cancelled` when the
call ends because `ctx` is done (the context's error), `failed` for any other
failure of the wait or receive, carried as its message. -/
inductive WaitError where
  | cancelled
  | failed (msg : String)
  deriving DecidableEq, Repr

/-- The errors `ListenDBEvents` builds with `fmt.Errorf("...: %w", err)`; each
wraps its cause. -/
inductive ListenError where
  /-- `Error listening to events channel: %w` -/
  | listening (cause : String)
  /-- `Error waiting for notification: %w` -/
  | waiting (cause : WaitError)
  deriving DecidableEq, Repr

/-- The dedicated connection: `exec sql` is the error of
`conn.Exec(context.Background(), sql)` (`none` is nil), and
`waitForNotification i` is what the call number `i` (from 0) of
`conn.Conn().WaitForNotification(ctx)` returns. -/
structure Conn where
  exec : String → Option String
  waitForNotification : Nat → Except WaitError Notification

/-- The `ListenProcessor` interface: `Process(channel, payload) error`, on a
handler state `σ` of its own. -/
structure ListenProcessor (σ : Type) where
  Process : σ → String → String → σ × Option String

/-- One call `processor.Process(channel, payload)` from handler state `s`: the
handler state after the call, the log of calls extended by this one, and the
error the handler returned. -/
def ListenProcessor.invoke {σ : Type} (processor : ListenProcessor σ) (s : σ)
    (processed : List (String × String)) (channel payload : String) :
    σ × List (String × String) × Option String :=
  let (s, err) := processor.Process s channel payload
  (s, processed ++ [(channel, payload)], err)

/-- What a call of `ListenDBEvents` did and returned: the commands it issued on
the connection, the number of `WaitForNotification` calls, the log of its
`Process` calls as `(channel, payload)` pairs, in order, the handler state those
calls left, and the returned error (`none` is nil). -/
structure ListenRun (σ : Type) where
  commands : List String
  waits : Nat
  processed : List (String × String)
  state : σ
  err : Option ListenError
  deriving DecidableEq, Repr

/-- The `for { ... }` loop of `ListenDBEvents`: `i` counts the waits made so far,
`s` is the handler state, `processed` the log of `Process` calls so far. The
error `Process` returns is printed and dropped. -/
def ListenDBEvents.loop {σ : Type} (conn : Conn) (processor : ListenProcessor σ) :
    Nat → Nat → σ → List (String × String) →
      Option (Nat × List (String × String) × σ × ListenError)
  | 0, _, _, _ => none
  | fuel + 1, i, s, processed =>
    match conn.waitForNotification i with
    | .error err => some (i + 1, processed, s, .waiting err)
    | .ok notification =>
      let (s, processed, _err) :=
        processor.invoke s processed notification.Channel notification.Payload
      ListenDBEvents.loop conn processor fuel (i + 1) s processed

/-- `func ListenDBEvents(ctx context.Context, conn *pgxpool.Conn, processor ListenProcessor) error`;
`none` when the fuel runs out before a wait fails. -/
def ListenDBEvents {σ : Type} (fuel : Nat) (conn : Conn) (processor : ListenProcessor σ)
    (s : σ) : Option (ListenRun σ) :=
  match conn.exec "listen events" with
  | some err =>
    some { commands := ["listen events"], waits := 0, processed := [], state := s
           err := some (.listening err) }
  | none =>
    match ListenDBEvents.loop conn processor fuel 0 s [] with
    | none => none
    | some (waits, processed, s, err) =>
      some { commands := ["listen events"], waits := waits, processed := processed, state := s
             err := some err }

/-! ## Specification-side vocabulary -/

/-- A field qualifies as primary key: declared name exactly `ID`, or tagged
`gorm:"primary_key"`. -/
def qualifies (f : Field) : Bool :=
  f.name == "ID" || f.gorm == "primary_key"

/-- The fields that qualify as primary key, in declaration order. -/
def keyFields (fs : List Field) : List Field :=
  fs.filter qualifies

/-- The db column name of the last qualifying field in declaration order; the
empty string when no field qualifies. -/
def keyColumn (fs : List Field) : String :=
  (((keyFields fs).getLast?).map Field.db).getD ""

/-- The INSERT column list in the spec's words: the db column names, in
declaration order, of the fields whose column name is non-empty and not in
`skip`. -/
def insertColumns (fs : List Field) (skip : StrSlice) : List String :=
  (fs.filter (fun f => decide (f.db ≠ "" ∧ f.db ∉ skip.elems))).map Field.db

/-- The UPDATE column list in the spec's words: the db column names, in
declaration order and once per field, of the fields whose declared name is in
`fieldNames`. -/
def updateColumns (fs : List Field) (fieldNames : StrSlice) : List String :=
  (fs.filter (fun f => decide (f.name ∈ fieldNames.elems))).map Field.db

/-- The INSERT statement in the spec's words:
`INSERT INTO <table> (<quoted columns>) VALUES (<named placeholders>) RETURNING <key>`. -/
def insertStatement (t : String) (cs : List String) (k : String) : String :=
  "INSERT INTO " ++ t ++ " (" ++ FieldsCSV cs ++ ") VALUES (" ++ FieldsCSVColon cs ++ ") RETURNING " ++ k

/-- The UPDATE statement in the spec's words:
`UPDATE <table> set <assignment list> where <key> = :<key>`. -/
def updateStatement (t : String) (cs : List String) (k : String) : String :=
  "UPDATE " ++ t ++ " set " ++ FieldsSet cs ++ " where " ++ k ++ " = :" ++ k

/-- An execution collaborator that answers every query with one row holding
key 7 and every exec with one affected row. -/
def oneRowExt : Ext :=
  { namedQuery := fun _ _ => .ok [some 7]
    namedExec := fun _ _ => .ok { rowsAffected := .ok 1 } }

/-- An execution collaborator whose statements succeed and affect no row. -/
def zeroRowExt : Ext :=
  { namedQuery := fun _ _ => .ok []
    namedExec := fun _ _ => .ok { rowsAffected := .ok 0 } }

/-- An execution collaborator whose queries return two rows, keys 5 then 9. -/
def twoRowExt : Ext :=
  { namedQuery := fun _ _ => .ok ([5, 9].map some)
    namedExec := fun _ _ => .ok { rowsAffected := .ok 2 } }

/-- A record whose second field carries no `db` tag. -/
def noteFields : List Field :=
  [⟨"ID", "id", ""⟩, ⟨"Note", "", ""⟩]

/-- A connection whose subscribe command answers `sub` and whose waits deliver
`ns` in order and then fail with `e`. -/
def scriptedConn (sub : Option String) (ns : List Notification) (e : WaitError) : Conn :=
  { exec := fun _ => sub
    waitForNotification := fun i =>
      match ns.get? i with
      | some n => .ok n
      | none => .error e }

/-- A handler that returns an error on every notification. -/
def failingProcessor : ListenProcessor Unit :=
  { Process := fun _ _ payload => ((), some ("cannot process " ++ payload)) }

/-- A handler that keeps, as its state, the `(channel, payload)` pairs it was
invoked on, in order, and returns an error on every one of them. -/
def recordingProcessor : ListenProcessor (List (String × String)) :=
  { Process := fun seen channel payload =>
      (seen ++ [(channel, payload)], some ("cannot process " ++ payload)) }

/-- The handler state after `Process` has been invoked once on each of the
notifications `ns`, in order, starting from state `s`. -/
def handledInOrder {σ : Type} (processor : ListenProcessor σ) (s : σ)
    (ns : List Notification) : σ :=
  ns.foldl (fun st n => (processor.Process st n.Channel n.Payload).1) s

/-- Two notifications on the `events` channel. -/
def twoEvents : List Notification :=
  [⟨41, "events", "first"⟩, ⟨41, "events", "second"⟩]

/-- One rendered column of `fieldsCSV` in the spec's words: `:` if `colon`, then
the column, quoted if `escape`. -/
def renderColumn (colon escape : Bool) (c : String) : String :=
  (if colon then ":" else "") ++ (if escape then "\"" ++ c ++ "\"" else c)

/-- The example entity of the spec: table `users`, key `id`, columns `name`, `email`. -/
def usersFields : List Field :=
  [⟨"ID", "id", ""⟩, ⟨"Name", "name", ""⟩, ⟨"Email", "email", ""⟩]

/-- A record with two qualifying fields: `ID` first, then a tagged field. -/
def twoKeyFields : List Field :=
  [⟨"ID", "id", ""⟩, ⟨"Uuid", "uuid", "primary_key"⟩]

/-- The example entity of the spec, as a struct value. -/
def usersEntity : Entity :=
  { tableName := "users", value := .struct usersFields }

/-! ## Lemmas on the loops -/

theorem SliceContains_loop_iff (x : String) (xs : List String) :
    SliceContains.loop x xs = true ↔ x ∈ xs := by
  induction xs with
  | nil => simp [SliceContains.loop]
  | cons n rest ih =>
    by_cases h : x = n
    · simp [SliceContains.loop, h]
    · simp [SliceContains.loop, h, ih]

theorem SliceContains_iff_mem (a : StrSlice) (x : String) :
    SliceContains a x = true ↔ x ∈ a.elems := by
  cases a with
  | none => simp [SliceContains, StrSlice.elems]
  | some xs => simpa [SliceContains, StrSlice.elems] using SliceContains_loop_iff x xs

/-- The key the loops leave in `primaryKey`: the column of the last qualifying
field, or the initial value when none qualifies. -/
theorem Fields_loop_fst (skip : StrSlice) (fs : List Field) (pk : String) (acc : List String) :
    (Fields.loop skip fs (pk, acc)).1 = (((keyFields fs).getLast?).map Field.db).getD pk := by
  induction fs generalizing pk acc with
  | nil => simp [Fields.loop, keyFields]
  | cons f rest ih =>
    simp only [Fields.loop]
    rw [ih]
    by_cases hq : qualifies f = true
    · have hq2 : (f.name == "ID" || f.gorm == "primary_key") = true := hq
      simp only [hq2, if_true, keyFields, List.filter_cons, hq]
      rw [List.getLast?_cons]
      cases h : (List.filter qualifies rest).getLast? <;> simp
    · have hq2 : (f.name == "ID" || f.gorm == "primary_key") = false := by
        simpa [qualifies] using hq
      simp [hq2, keyFields, List.filter_cons, hq]

theorem Fields_loop_snd (skip : StrSlice) (fs : List Field) (pk : String) (acc : List String) :
    (Fields.loop skip fs (pk, acc)).2 = acc ++ insertColumns fs skip := by
  induction fs generalizing pk acc with
  | nil => simp [Fields.loop, insertColumns]
  | cons f rest ih =>
    simp only [Fields.loop]
    rw [ih]
    by_cases hk : f.db ≠ "" ∧ f.db ∉ skip.elems
    · have hc : (f.db != "" && !SliceContains skip f.db) = true := by
        have := SliceContains_iff_mem skip f.db
        have h3 : SliceContains skip f.db = false := by
          cases h : SliceContains skip f.db
          · rfl
          · exact absurd (this.mp h) hk.2
        simp [hk.1, h3]
      simp [hc, insertColumns, List.filter_cons, hk]
    · have hc : (f.db != "" && !SliceContains skip f.db) = false := by
        have := SliceContains_iff_mem skip f.db
        by_cases h1 : f.db = ""
        · simp [h1]
        · have h2 : f.db ∈ skip.elems := by
            by_contra h2; exact hk ⟨h1, h2⟩
          simp [this.mpr h2]
      simp [hc, insertColumns, List.filter_cons, hk]

theorem DBTags_loop_fst (names : StrSlice) (fs : List Field) (pk : String) (acc : List String) :
    (DBTags.loop names fs (pk, acc)).1 = (((keyFields fs).getLast?).map Field.db).getD pk := by
  induction fs generalizing pk acc with
  | nil => simp [DBTags.loop, keyFields]
  | cons f rest ih =>
    simp only [DBTags.loop]
    rw [ih]
    by_cases hq : qualifies f = true
    · have hq2 : (f.name == "ID" || f.gorm == "primary_key") = true := hq
      simp only [hq2, if_true, keyFields, List.filter_cons, hq]
      rw [List.getLast?_cons]
      cases h : (List.filter qualifies rest).getLast? <;> simp
    · have hq2 : (f.name == "ID" || f.gorm == "primary_key") = false := by
        simpa [qualifies] using hq
      simp [hq2, keyFields, List.filter_cons, hq]

theorem DBTags_loop_snd (names : StrSlice) (fs : List Field) (pk : String) (acc : List String) :
    (DBTags.loop names fs (pk, acc)).2 = acc ++ updateColumns fs names := by
  induction fs generalizing pk acc with
  | nil => simp [DBTags.loop, updateColumns]
  | cons f rest ih =>
    simp only [DBTags.loop]
    rw [ih]
    have := SliceContains_iff_mem names f.name
    by_cases hk : f.name ∈ names.elems
    · simp [this.mpr hk, updateColumns, List.filter_cons, hk]
    · have hc : SliceContains names f.name = false := by
        cases h : SliceContains names f.name
        · rfl
        · exact absurd (this.mp h) hk
      simp [hc, updateColumns, List.filter_cons, hk]

theorem Fields_struct (values : Value) (fs : List Field) (skip : StrSlice)
    (hv : values.deref = .struct fs) :
    Fields values skip =
      if keyColumn fs = "" then .returns (none, "", some .fieldsPrimaryKeyNotFound)
      else .returns (some (insertColumns fs skip), keyColumn fs, none) := by
  have h : Fields.loop skip fs ("", []) = (keyColumn fs, insertColumns fs skip) :=
    Prod.ext (by simpa [keyColumn] using Fields_loop_fst skip fs "" [])
      (by simpa using Fields_loop_snd skip fs "" [])
  unfold Fields
  rw [hv]
  simp only [h]
  by_cases hk : keyColumn fs = "" <;> simp [hk]

theorem DBTags_struct (values : Value) (fs : List Field) (names : StrSlice)
    (hv : values.deref = .struct fs) :
    DBTags values names =
      if keyColumn fs = "" then (none, "", some .dbTagsPrimaryKeyNotFound)
      else (some (updateColumns fs names), keyColumn fs, none) := by
  have h : DBTags.loop names fs ("", []) = (keyColumn fs, updateColumns fs names) :=
    Prod.ext (by simpa [keyColumn] using DBTags_loop_fst names fs "" [])
      (by simpa using DBTags_loop_snd names fs "" [])
  unfold DBTags
  rw [hv]
  simp only [h]
  by_cases hk : keyColumn fs = "" <;> simp [hk]

/-- When the key column is non-empty it is the column of a declared field. -/
theorem keyColumn_mem (fs : List Field) (hk : keyColumn fs ≠ "") :
    ∃ f ∈ fs, f.db = keyColumn fs := by
  unfold keyColumn at *
  cases h : (keyFields fs).getLast? with
  | none => simp [h] at hk
  | some last =>
    have hm : last ∈ keyFields fs := by
      obtain ⟨ys, hys⟩ := List.getLast?_eq_some_iff.mp h
      rw [hys]; simp
    have hm2 : last ∈ fs := (List.mem_filter.mp hm).1
    exact ⟨last, hm2, by simp⟩

theorem keyColumn_of_no_key (fs : List Field)
    (hno : ∀ f ∈ fs, f.name ≠ "ID" ∧ f.gorm ≠ "primary_key") : keyColumn fs = "" := by
  have : keyFields fs = [] := by
    unfold keyFields
    rw [List.filter_eq_nil_iff]
    intro f hf
    have := hno f hf
    simp [qualifies, this.1, this.2]
  simp [keyColumn, this]

/-- What `insert` does once `Fields` has succeeded. -/
theorem insert_of_Fields (db : Ext) (e : Entity) (skip fields : StrSlice) (k : String)
    (h : Fields e.value skip = .returns (fields, k, none)) :
    insert db e skip = .returns
      (match db.namedQuery (insertStatement e.tableName fields.elems k) e with
        | .error msg =>
          { executed := [insertStatement e.tableName fields.elems k]
            result := some { lastID := 0, rowsAffected := 0 }
            err := some (.exec msg) }
        | .ok rows =>
          { executed := [insertStatement e.tableName fields.elems k]
            result := some { lastID := (insert.loop rows (0, 0)).1
                             rowsAffected := (insert.loop rows (0, 0)).2 }
            err := if (insert.loop rows (0, 0)).2 ≤ 0 then some .insertRowsAffected else none }) := by
  unfold insert
  rw [h]
  simp only [insertStatement]
  cases hq : db.namedQuery _ e with
  | error msg => rfl
  | ok rows =>
    simp only [InsertResult.RowsAffected, Option.isSome_none, Bool.or_false, decide_eq_true_eq]
    split_ifs <;> rfl

/-- What `update` does once `DBTags` has succeeded. -/
theorem update_of_DBTags (db : Ext) (e : Entity) (names dbFields : StrSlice) (k : String)
    (h : DBTags e.value names = (dbFields, k, none)) :
    update db e names = .returns
      (match db.namedExec (updateStatement e.tableName dbFields.elems k) e with
        | .error msg =>
          { executed := [updateStatement e.tableName dbFields.elems k]
            result := none
            err := some (.exec msg) }
        | .ok r =>
          { executed := [updateStatement e.tableName dbFields.elems k]
            result := some r
            err := match r.rowsAffected with
              | .error m => some (.updateRowsAffected (some m))
              | .ok count => if count ≤ 0 then some (.updateRowsAffected none) else none }) := by
  unfold update
  rw [h]
  simp only [updateStatement]
  cases hq : db.namedExec _ e with
  | error msg => rfl
  | ok r =>
    simp only
    cases hr : r.rowsAffected with
    | error m => rfl
    | ok count =>
      simp only
      split_ifs <;> rfl

theorem wrapInt64_of_inRange (x : Int) (h0 : -(2 ^ 63) ≤ x) (h1 : x < 2 ^ 63) :
    wrapInt64 x = x := by
  unfold wrapInt64
  omega

/-- The counter of the row loop: one per row, while it stays in the `int64` range. -/
theorem insert_loop_snd (rows : List (Option Int)) (lastID total : Int)
    (h0 : 0 ≤ total) (h1 : total + rows.length < 2 ^ 63) :
    (insert.loop rows (lastID, total)).2 = total + rows.length := by
  induction rows generalizing lastID total with
  | nil => simp [insert.loop]
  | cons row rest ih =>
    simp only [insert.loop, List.length_cons, Nat.cast_add, Nat.cast_one] at h1 ⊢
    rw [wrapInt64_of_inRange (total + 1) (by omega) (by omega)]
    rw [ih _ (total + 1) (by omega) (by omega)]
    omega

/-- The key the row loop keeps: that of the last row, when every scan succeeds. -/
theorem insert_loop_fst (ids : List Int) (lastID total : Int) :
    (insert.loop (ids.map some) (lastID, total)).1 = ids.getLast?.getD lastID := by
  induction ids generalizing lastID total with
  | nil => simp [insert.loop]
  | cons id rest ih =>
    simp only [List.map_cons, insert.loop]
    rw [ih, List.getLast?_cons]
    cases rest.getLast? <;> simp

/-- After the first element, the loop of `fieldsCSV` is the accumulating join
with separator `, `. -/
theorem fieldsCSV_loop_succ (colon escape : Bool) (rest : List String) (i : Nat) (acc : String) :
    fieldsCSV.loop colon escape rest (i + 1) acc
      = String.intercalate.go acc ", " (rest.map (renderColumn colon escape)) := by
  induction rest generalizing i acc with
  | nil => simp [fieldsCSV.loop, String.intercalate.go]
  | cons field rest ih =>
    simp only [fieldsCSV.loop, List.map_cons, String.intercalate.go]
    rw [ih]
    congr 1
    cases colon <;> cases escape <;>
      simp [renderColumn, String.append_assoc, -String.reduceAppend]

theorem fieldsCSV_eq_intercalate (fields : List String) (colon escape : Bool) :
    fieldsCSV fields colon escape
      = String.intercalate ", " (fields.map (renderColumn colon escape)) := by
  cases fields with
  | nil => rfl
  | cons field rest =>
    simp only [fieldsCSV, fieldsCSV.loop, List.map_cons, String.intercalate]
    rw [fieldsCSV_loop_succ]
    congr 1
    cases colon <;> cases escape <;> simp [renderColumn]

/-- After the first element, the loop of `FieldsSet` is the accumulating join
with separator `, `. -/
theorem FieldsSet_loop_succ (rest : List String) (i : Nat) (acc : String) :
    FieldsSet.loop rest (i + 1) acc
      = String.intercalate.go acc ", " (rest.map (fun c => c ++ " = :" ++ c)) := by
  induction rest generalizing i acc with
  | nil => simp [FieldsSet.loop, String.intercalate.go]
  | cons field rest ih =>
    simp only [FieldsSet.loop, List.map_cons, String.intercalate.go]
    rw [ih]
    congr 1
    simp [String.append_assoc, -String.reduceAppend]

theorem FieldsSet_eq_intercalate (fields : List String) :
    FieldsSet fields = String.intercalate ", " (fields.map (fun c => c ++ " = :" ++ c)) := by
  cases fields with
  | nil => rfl
  | cons field rest =>
    simp only [FieldsSet, FieldsSet.loop, List.map_cons, String.intercalate]
    rw [FieldsSet_loop_succ]
    congr 1

/-- The map loop of `Fields` appends the keys, in the order given. -/
theorem Fields_mapLoop_eq (keys acc : List String) :
    Fields.mapLoop keys acc = acc ++ keys := by
  induction keys generalizing acc with
  | nil => simp [Fields.mapLoop]
  | cons k rest ih => simp [Fields.mapLoop, ih]

/-- The listener loop on a connection whose waits number `i`, `i+1`, ... deliver
`ns` and then fail with `e`: with more fuel than notifications it invokes the
handler on each of them, in order, and stops at the failed wait. -/
theorem ListenDBEvents_loop_eq {σ : Type} (conn : Conn) (processor : ListenProcessor σ)
    (ns : List Notification) (e : WaitError) (fuel i : Nat) (s : σ)
    (processed : List (String × String))
    (hw : ∀ j (h : j < ns.length), conn.waitForNotification (i + j) = .ok (ns.get ⟨j, h⟩))
    (he : conn.waitForNotification (i + ns.length) = .error e)
    (hfuel : ns.length < fuel) :
    ListenDBEvents.loop conn processor fuel i s processed
      = some (i + ns.length + 1,
          processed ++ ns.map (fun n => (n.Channel, n.Payload)),
          handledInOrder processor s ns, .waiting e) := by
  induction ns generalizing fuel i s processed with
  | nil =>
    cases fuel with
    | zero => simp at hfuel
    | succ fuel =>
      simp only [List.length_nil, Nat.add_zero] at he
      simp [ListenDBEvents.loop, he, handledInOrder]
  | cons n rest ih =>
    cases fuel with
    | zero => simp at hfuel
    | succ fuel =>
      have h0 : conn.waitForNotification i = .ok n := by
        have := hw 0 (by simp)
        simpa using this
      simp only [ListenDBEvents.loop, h0, ListenProcessor.invoke]
      rw [ih fuel (i + 1) _ _ ?_ ?_ ?_]
      · simp [Nat.add_assoc, Nat.add_comm 1, handledInOrder]
      · intro j hj
        have := hw (j + 1) (by simpa using hj)
        simpa [Nat.add_assoc, Nat.add_comm 1] using this
      · simpa [Nat.add_assoc, Nat.add_comm 1] using he
      · simpa using hfuel

/-- The recording handler ends with the pairs it started with followed by the
pair of every notification it was invoked on, in order. -/
theorem handledInOrder_recording (seen : List (String × String)) (ns : List Notification) :
    handledInOrder recordingProcessor seen ns
      = seen ++ ns.map (fun n => (n.Channel, n.Payload)) := by
  induction ns generalizing seen with
  | nil => simp [handledInOrder]
  | cons n rest ih =>
    have h := ih (seen ++ [(n.Channel, n.Payload)])
    simp only [handledInOrder, List.foldl_cons, List.map_cons] at h ⊢
    rw [show (recordingProcessor.Process seen n.Channel n.Payload).1
        = seen ++ [(n.Channel, n.Payload)] from rfl, h]
    simp

/-- What `ListenDBEvents` returns once the subscribe command has succeeded, on a
connection whose waits deliver `ns` and then fail with `e`. -/
theorem ListenDBEvents_of_subscribed {σ : Type} (conn : Conn) (processor : ListenProcessor σ)
    (s : σ) (ns : List Notification) (e : WaitError) (fuel : Nat)
    (hsub : conn.exec "listen events" = none)
    (hw : ∀ j (h : j < ns.length), conn.waitForNotification j = .ok (ns.get ⟨j, h⟩))
    (he : conn.waitForNotification ns.length = .error e) (hfuel : ns.length < fuel) :
    ListenDBEvents fuel conn processor s
      = some { commands := ["listen events"]
               waits := ns.length + 1
               processed := ns.map (fun n => (n.Channel, n.Payload))
               state := handledInOrder processor s ns
               err := some (.waiting e) } := by
  unfold ListenDBEvents
  rw [hsub]
  simp only
  rw [ListenDBEvents_loop_eq conn processor ns e fuel 0 s [] (by simpa using hw)
    (by simpa using he) hfuel]
  simp

/-- The key column is empty exactly when no field qualifies or the last
qualifying field has an empty db column name. -/
theorem keyColumn_eq_empty_iff (fs : List Field) :
    keyColumn fs = "" ↔
      (keyFields fs = [] ∨ ∃ last, (keyFields fs).getLast? = some last ∧ last.db = "") := by
  unfold keyColumn
  cases h : (keyFields fs).getLast? with
  | none =>
    have : keyFields fs = [] := List.getLast?_eq_none_iff.mp h
    simp [this]
  | some last =>
    have hne : keyFields fs ≠ [] := by
      intro h0
      rw [h0] at h
      cases h
    simp [hne]

/-- A successful key is the column of the last qualifying field. -/
theorem keyColumn_eq_last (fs : List Field) (hk : keyColumn fs ≠ "") :
    ∃ last, (keyFields fs).getLast? = some last ∧ keyColumn fs = last.db := by
  unfold keyColumn at *
  cases h : (keyFields fs).getLast? with
  | none => simp [h] at hk
  | some last => exact ⟨last, rfl, by simp⟩

/-! ## Claims -/

/-- C1: for a structured record on which `Fields` succeeds, and for every skip
list, the returned column list is exactly the db column names, in declaration
order, of the fields whose column name is non-empty and not in `skip`; the
primary-key column is in the list unless it is in `skip`. -/
theorem Fields_columns_in_declaration_order (values : Value) (fs : List Field)
    (skip cols : StrSlice) (key : String) (hv : values.deref = .struct fs)
    (h : Fields values skip = .returns (cols, key, none)) :
    cols = some ((fs.filter (fun f => decide (f.db ≠ "" ∧ f.db ∉ skip.elems))).map Field.db)
      ∧ (key ∉ skip.elems → key ∈ cols.elems) := by
  rw [Fields_struct values fs skip hv] at h
  by_cases hk : keyColumn fs = ""
  · simp [hk] at h
  · simp only [hk, if_false, Outcome.returns.injEq, Prod.mk.injEq, and_true] at h
    obtain ⟨hc, hkey⟩ := h
    subst hc hkey
    refine ⟨rfl, ?_⟩
    intro hns
    obtain ⟨f, hf, hdb⟩ := keyColumn_mem fs hk
    show keyColumn fs ∈ insertColumns fs skip
    simp only [insertColumns, List.mem_map, List.mem_filter]
    refine ⟨f, ⟨hf, ?_⟩, hdb⟩
    rw [hdb]
    simp [hk, hns]

theorem Fields_columns_in_declaration_order_witness :
    (some ["id", "name"] : StrSlice)
        = some ((usersFields.filter
            (fun f => decide (f.db ≠ "" ∧ f.db ∉ StrSlice.elems (some ["email"])))).map Field.db)
      ∧ ("id" ∉ StrSlice.elems (some ["email"])
          → "id" ∈ StrSlice.elems (some ["id", "name"])) :=
  Fields_columns_in_declaration_order usersEntity.value usersFields (some ["email"])
    (some ["id", "name"]) "id" rfl (by decide)

/-- C2, as stated, fails: in a record where `ID` (column `id`) is declared before
a field tagged `gorm:"primary_key"` (column `uuid`), both qualify, the first
qualifying field has column `id`, and `Fields` and `DBTags` return `uuid`. -/
theorem first_qualifying_field_is_not_the_key :
    1 < (keyFields twoKeyFields).length
      ∧ (keyFields twoKeyFields).head?.map Field.db = some "id"
      ∧ Fields (.struct twoKeyFields) none = .returns (some ["id", "uuid"], "uuid", none)
      ∧ DBTags (.struct twoKeyFields) none = (some [], "uuid", none) := by
  decide

/-- C2, amended: for a structured record in which more than one field qualifies
as primary key, and whose last qualifying field in declaration order has a
non-empty db column name, `Fields` (every skip list) and `DBTags` (every
field-name list) succeed and return as primary key the db column name of that
last qualifying field. -/
theorem key_is_last_qualifying_field (values : Value) (fs : List Field)
    (hv : values.deref = .struct fs) (hmany : 1 < (keyFields fs).length) :
    ∃ last, (keyFields fs).getLast? = some last
      ∧ (last.db ≠ "" →
          (∀ skip, ∃ cols, Fields values skip = .returns (some cols, last.db, none))
          ∧ (∀ names, ∃ cols, DBTags values names = (some cols, last.db, none))) := by
  cases hl : (keyFields fs).getLast? with
  | none =>
    rw [List.getLast?_eq_none_iff] at hl
    simp [hl] at hmany
  | some last =>
    refine ⟨last, rfl, fun hne => ?_⟩
    have hk : keyColumn fs = last.db := by simp [keyColumn, hl]
    have hk2 : keyColumn fs ≠ "" := by rw [hk]; exact hne
    constructor
    · intro skip
      refine ⟨insertColumns fs skip, ?_⟩
      rw [Fields_struct values fs skip hv, if_neg hk2, hk]
    · intro names
      refine ⟨updateColumns fs names, ?_⟩
      rw [DBTags_struct values fs names hv, if_neg hk2, hk]

theorem key_is_last_qualifying_field_witness :
    ∃ last, (keyFields twoKeyFields).getLast? = some last
      ∧ (last.db ≠ "" →
          (∀ skip, ∃ cols, Fields (.ptr (.struct twoKeyFields)) skip
              = .returns (some cols, last.db, none))
          ∧ (∀ names, ∃ cols, DBTags (.ptr (.struct twoKeyFields)) names
              = (some cols, last.db, none))) :=
  key_is_last_qualifying_field (.ptr (.struct twoKeyFields)) twoKeyFields rfl (by decide)

/-- C3: for a structured record with no field named `ID` and no field tagged as
primary key, `Fields` (every skip list) and `DBTags` (every field-name list)
return the missing-primary-key error, a nil column list and the empty key. -/
theorem missing_primary_key_is_an_error (values : Value) (fs : List Field)
    (hv : values.deref = .struct fs)
    (hno : ∀ f ∈ fs, f.name ≠ "ID" ∧ f.gorm ≠ "primary_key") :
    (∀ skip, Fields values skip = .returns (none, "", some .fieldsPrimaryKeyNotFound))
      ∧ (∀ names, DBTags values names = (none, "", some .dbTagsPrimaryKeyNotFound)) := by
  have hk := keyColumn_of_no_key fs hno
  constructor
  · intro skip
    rw [Fields_struct values fs skip hv, if_pos hk]
  · intro names
    rw [DBTags_struct values fs names hv, if_pos hk]

theorem missing_primary_key_is_an_error_witness :
    (∀ skip, Fields (.struct [⟨"Name", "name", ""⟩, ⟨"Id", "id", "index"⟩]) skip
        = .returns (none, "", some .fieldsPrimaryKeyNotFound))
      ∧ (∀ names, DBTags (.struct [⟨"Name", "name", ""⟩, ⟨"Id", "id", "index"⟩]) names
        = (none, "", some .dbTagsPrimaryKeyNotFound)) :=
  missing_primary_key_is_an_error (.struct [⟨"Name", "name", ""⟩, ⟨"Id", "id", "index"⟩])
    [⟨"Name", "name", ""⟩, ⟨"Id", "id", "index"⟩] rfl (by decide)

/-- C4: when `Fields` yields the column list `cs` and the key `k`, `insert`
hands the execution collaborator exactly one statement, the text
`INSERT INTO t (FieldsCSV cs) VALUES (FieldsCSVColon cs) RETURNING k`; for table
`users`, columns `name`, `email` and key `id` that text is
`INSERT INTO users ("name", "email") VALUES (:name, :email) RETURNING id`. -/
theorem insert_statement_text (db : Ext) (e : Entity) (skip : StrSlice) (cs : List String)
    (k : String) (h : Fields e.value skip = .returns (some cs, k, none)) :
    ∃ c, insert db e skip = .returns c
      ∧ c.executed = ["INSERT INTO " ++ e.tableName ++ " (" ++ FieldsCSV cs ++ ") VALUES ("
          ++ FieldsCSVColon cs ++ ") RETURNING " ++ k]
      ∧ (e.tableName = "users" → cs = ["name", "email"] → k = "id" →
          c.executed
            = ["INSERT INTO users (\"name\", \"email\") VALUES (:name, :email) RETURNING id"]) := by
  have hi := insert_of_Fields db e skip (some cs) k h
  have hex : ∀ c, insert db e skip = .returns c →
      c.executed = [insertStatement e.tableName cs k] := by
    intro c hc
    rw [hi] at hc
    cases hq : db.namedQuery (insertStatement e.tableName (StrSlice.elems (some cs)) k) e <;>
      rw [hq] at hc <;> cases hc <;> rfl
  refine ⟨_, hi, hex _ hi, ?_⟩
  intro ht hcs hk
  rw [hex _ hi, ht, hcs, hk]
  decide

theorem insert_statement_text_witness :
    ∃ c, insert oneRowExt usersEntity (some ["id"]) = .returns c
      ∧ c.executed
          = ["INSERT INTO users (\"name\", \"email\") VALUES (:name, :email) RETURNING id"] := by
  obtain ⟨c, h1, _, h3⟩ :=
    insert_statement_text oneRowExt usersEntity (some ["id"]) ["name", "email"] "id" (by decide)
  exact ⟨c, h1, h3 rfl rfl rfl⟩

/-- C5: when `DBTags` yields the set-column list `cs` and the key `k`, `update`
hands the execution collaborator exactly one statement, the text
`UPDATE t set FieldsSet(cs) where k = :k`; for table `users`, the column list
`name` and key `id` that text is `UPDATE users set name = :name where id = :id`. -/
theorem update_statement_text (db : Ext) (e : Entity) (names : StrSlice) (cs : List String)
    (k : String) (h : DBTags e.value names = (some cs, k, none)) :
    ∃ c, update db e names = .returns c
      ∧ c.executed = ["UPDATE " ++ e.tableName ++ " set " ++ FieldsSet cs ++ " where " ++ k
          ++ " = :" ++ k]
      ∧ (e.tableName = "users" → cs = ["name"] → k = "id" →
          c.executed = ["UPDATE users set name = :name where id = :id"]) := by
  have hi := update_of_DBTags db e names (some cs) k h
  have hex : ∀ c, update db e names = .returns c →
      c.executed = [updateStatement e.tableName cs k] := by
    intro c hc
    rw [hi] at hc
    cases hq : db.namedExec (updateStatement e.tableName (StrSlice.elems (some cs)) k) e <;>
      rw [hq] at hc <;> cases hc <;> rfl
  refine ⟨_, hi, hex _ hi, ?_⟩
  intro ht hcs hk
  rw [hex _ hi, ht, hcs, hk]
  decide

theorem update_statement_text_witness :
    ∃ c, update oneRowExt usersEntity (some ["Name"]) = .returns c
      ∧ c.executed = ["UPDATE users set name = :name where id = :id"] := by
  obtain ⟨c, h1, _, h3⟩ :=
    update_statement_text oneRowExt usersEntity (some ["Name"]) ["name"] "id" (by decide)
  exact ⟨c, h1, h3 rfl rfl rfl⟩

/-- C6: once metadata extraction has succeeded, whatever the execution
collaborator answers, `insert` and `update` return a nil error if and only if
the statement executed without error and the affected-row count (for `insert`
the count its result reports, which is the number of rows drained; for `update`
the count `RowsAffected()` yields) is at least 1; a successful execution that
affects 0 rows yields the rows-affected error. -/
theorem nil_error_iff_row_affected (db : Ext) (e : Entity) (skip names : StrSlice) :
    (∀ fields k, Fields e.value skip = .returns (fields, k, none) →
      ∃ c sql, insert db e skip = .returns c ∧ c.executed = [sql]
        ∧ (c.err = none ↔
            (∃ rows, db.namedQuery sql e = .ok rows)
              ∧ ∃ r, c.result = some r ∧ 1 ≤ r.RowsAffected.1)
        ∧ (∀ rows, db.namedQuery sql e = .ok rows → (rows.length : Int) < 2 ^ 63 →
            ∃ r, c.result = some r ∧ r.RowsAffected.1 = rows.length)
        ∧ (db.namedQuery sql e = .ok [] → c.err = some .insertRowsAffected))
    ∧ (∀ dbFields k, DBTags e.value names = (dbFields, k, none) →
      ∃ c sql, update db e names = .returns c ∧ c.executed = [sql]
        ∧ (c.err = none ↔ ∃ r n, db.namedExec sql e = .ok r ∧ r.rowsAffected = .ok n ∧ 1 ≤ n)
        ∧ (∀ r, db.namedExec sql e = .ok r → r.rowsAffected = .ok 0 →
            c.err = some (.updateRowsAffected none))) := by
  constructor
  · intro fields k h
    have hi := insert_of_Fields db e skip fields k h
    refine ⟨_, insertStatement e.tableName fields.elems k, hi, ?_⟩
    cases hq : db.namedQuery (insertStatement e.tableName fields.elems k) e with
    | error msg => simp
    | ok rows =>
      refine ⟨rfl, ?_, ?_, ?_⟩
      · simp only [InsertResult.RowsAffected]
        generalize insert.loop rows (0, 0) = st
        by_cases hc : st.2 ≤ 0
        · simp only [hc, if_true]
          constructor
          · intro h0
            cases h0
          · rintro ⟨_, r, hr, h1⟩
            simp only [Option.some.injEq] at hr
            subst hr
            simp only at h1
            omega
        · simp only [hc, if_false, true_iff]
          refine ⟨⟨rows, rfl⟩, _, rfl, ?_⟩
          simp only
          omega
      · intro rows2 h2 hlen
        simp only [Except.ok.injEq] at h2
        subst h2
        refine ⟨_, rfl, ?_⟩
        simp only [InsertResult.RowsAffected]
        rw [insert_loop_snd rows 0 0 (le_refl 0) (by omega)]
        omega
      · intro h2
        simp only [Except.ok.injEq] at h2
        subst h2
        rfl
  · intro dbFields k h
    have hi := update_of_DBTags db e names dbFields k h
    refine ⟨_, updateStatement e.tableName dbFields.elems k, hi, ?_⟩
    cases hq : db.namedExec (updateStatement e.tableName dbFields.elems k) e with
    | error msg => simp
    | ok r =>
      refine ⟨rfl, ?_, ?_⟩
      · show (match r.rowsAffected with
              | .error m => some (DBError.updateRowsAffected (some m))
              | .ok count => if count ≤ 0 then some (DBError.updateRowsAffected none) else none)
              = none ↔ ∃ r1 n, Except.ok r = Except.ok r1 ∧ r1.rowsAffected = .ok n ∧ 1 ≤ n
        constructor
        · intro h0
          rcases hr : r.rowsAffected with m | n
          · rw [hr] at h0
            cases h0
          · rw [hr] at h0
            refine ⟨r, n, rfl, hr, ?_⟩
            by_contra hn
            have hle : n ≤ 0 := by omega
            simp only [hle, if_true] at h0
            cases h0
        · rintro ⟨r1, n, h1, h2, h3⟩
          cases h1
          rw [h2]
          have hn : ¬ n ≤ 0 := by omega
          simp only [hn, if_false]
      · intro r2 h2 h0
        simp only [Except.ok.injEq] at h2
        subst h2
        simp [h0]

theorem nil_error_iff_row_affected_witness :
    (∃ c, insert zeroRowExt usersEntity none = .returns c ∧ c.err = some .insertRowsAffected)
      ∧ (∃ c, update zeroRowExt usersEntity (some ["Name"]) = .returns c
          ∧ c.err = some (.updateRowsAffected none)) := by
  have h := nil_error_iff_row_affected zeroRowExt usersEntity none (some ["Name"])
  obtain ⟨c, sql, h1, _, _, _, h5⟩ :=
    h.1 (some ["id", "name", "email"]) "id" (by decide)
  obtain ⟨c2, sql2, g1, _, _, g4⟩ := h.2 (some ["name"]) "id" (by decide)
  exact ⟨⟨c, h1, h5 rfl⟩, ⟨c2, g1, g4 _ rfl rfl⟩⟩

/-- C7: when `Fields` has succeeded and the INSERT ... RETURNING statement yields
a non-empty sequence of rows whose keys all scan (fewer rows than the `int64`
counter can count), the `InsertResult` that `insert` returns, with a nil error,
reports `RowsAffected` = the number of rows and `LastInsertId` = the key of the
last row, both with a nil error. -/
theorem insert_result_counts_rows_and_keeps_last_key (db : Ext) (e : Entity)
    (skip fields : StrSlice) (k : String) (ids : List Int)
    (hF : Fields e.value skip = .returns (fields, k, none))
    (hq : db.namedQuery (insertStatement e.tableName fields.elems k) e = .ok (ids.map some))
    (hne : ids ≠ []) (hlen : (ids.length : Int) < 2 ^ 63) :
    ∃ c r, insert db e skip = .returns c ∧ c.err = none ∧ c.result = some r
      ∧ r.RowsAffected = ((ids.length : Int), none)
      ∧ r.LastInsertId = (ids.getLast hne, none) := by
  have hi := insert_of_Fields db e skip fields k hF
  rw [hq] at hi
  have hcount : (insert.loop (ids.map some) (0, 0)).2 = ids.length := by
    rw [insert_loop_snd (ids.map some) 0 0 (le_refl 0) (by simpa using hlen)]
    simp
  have hlast : (insert.loop (ids.map some) (0, 0)).1 = ids.getLast hne := by
    rw [insert_loop_fst, List.getLast?_eq_getLast ids hne]
    rfl
  have hpos : ¬ ((ids.length : Int) ≤ 0) := by
    have : 0 < ids.length := List.length_pos.mpr hne
    omega
  refine ⟨_, _, hi, ?_, rfl, ?_, ?_⟩
  · simp only [hcount, hpos, if_false]
  · simp only [InsertResult.RowsAffected, hcount]
  · simp only [InsertResult.LastInsertId, hlast]

theorem insert_result_counts_rows_and_keeps_last_key_witness :
    ∃ c r, insert twoRowExt usersEntity (some ["id"]) = .returns c ∧ c.err = none
      ∧ c.result = some r ∧ r.RowsAffected = (2, none) ∧ r.LastInsertId = (9, none) :=
  insert_result_counts_rows_and_keeps_last_key twoRowExt usersEntity (some ["id"])
    (some ["name", "email"]) "id" [5, 9] (by decide) rfl (by decide) (by decide)

/-- C8: for a structured record with a primary key (one on which `Fields` finds
the key `key`) and every list of field names, `DBTags` succeeds and returns
exactly the db column names, in declaration order and once per field, of the
fields whose declared name is in the list, together with that same key; the
result depends only on which names are in the list, not on their order or
multiplicity. -/
theorem DBTags_columns_of_named_fields (values : Value) (fs : List Field)
    (names skip cols : StrSlice) (key : String) (hv : values.deref = .struct fs)
    (hF : Fields values skip = .returns (cols, key, none)) :
    DBTags values names
        = (some ((fs.filter (fun f => decide (f.name ∈ names.elems))).map Field.db), key, none)
      ∧ (∀ names2 : StrSlice, (∀ x, x ∈ names2.elems ↔ x ∈ names.elems) →
          DBTags values names2 = DBTags values names) := by
  rw [Fields_struct values fs skip hv] at hF
  by_cases hk : keyColumn fs = ""
  · simp [hk] at hF
  · simp only [hk, if_false, Outcome.returns.injEq, Prod.mk.injEq, and_true] at hF
    obtain ⟨_, hkey⟩ := hF
    subst hkey
    constructor
    · rw [DBTags_struct values fs names hv, if_neg hk]
      rfl
    · intro names2 hmem
      rw [DBTags_struct values fs names hv, DBTags_struct values fs names2 hv]
      have : updateColumns fs names2 = updateColumns fs names := by
        unfold updateColumns
        congr 1
        apply List.filter_congr
        intro f _
        simp [hmem f.name]
      rw [this]

theorem DBTags_columns_of_named_fields_witness :
    DBTags (.ptr (.struct usersFields)) (some ["Email", "Missing", "Name", "Email"])
        = (some ((usersFields.filter (fun f =>
            decide (f.name ∈ StrSlice.elems (some ["Email", "Missing", "Name", "Email"])))).map
              Field.db), "id", none)
      ∧ (∀ names2 : StrSlice,
          (∀ x, x ∈ names2.elems ↔ x ∈ StrSlice.elems (some ["Email", "Missing", "Name", "Email"])) →
          DBTags (.ptr (.struct usersFields)) names2
            = DBTags (.ptr (.struct usersFields)) (some ["Email", "Missing", "Name", "Email"])) :=
  DBTags_columns_of_named_fields (.ptr (.struct usersFields)) usersFields
    (some ["Email", "Missing", "Name", "Email"]) none (some ["id", "name", "email"]) "id" rfl
    (by decide)

/-- C9 does not hold of the code: for the record `ID` (column `id`), `Note` (no
`db` tag) and the field-name list `Note`, `DBTags` succeeds and returns the
column list holding the empty name, which `update` renders into the SET clause;
`Fields`, on the same record, leaves the untagged field out. -/
theorem DBTags_keeps_empty_column_name :
    DBTags (.struct noteFields) (some ["Note"]) = (some [""], "id", none)
      ∧ Fields (.struct noteFields) none = .returns (some ["id"], "id", none)
      ∧ ∃ c, update oneRowExt ⟨"notes", .struct noteFields⟩ (some ["Note"]) = .returns c
          ∧ c.executed = ["UPDATE notes set  = : where id = :id"] := by
  refine ⟨by decide, by decide, _, rfl, by decide⟩

/-- C10: `fieldsCSV(fields, colon, escape)` is the `, `-join of the columns, each
prefixed by `:` if `colon` and wrapped in double quotes if `escape`; so
`FieldsCSV` joins the quoted columns, `FieldsCSVColon` joins the columns
prefixed by `:`, and the empty list gives the empty string. -/
theorem fieldsCSV_is_comma_join (fields : List String) (colon escape : Bool) :
    fieldsCSV fields colon escape
        = String.intercalate ", "
            (fields.map (fun c => (if colon then ":" else "") ++ (if escape then "\"" ++ c ++ "\"" else c)))
      ∧ FieldsCSV fields = String.intercalate ", " (fields.map (fun c => "\"" ++ c ++ "\""))
      ∧ FieldsCSVColon fields = String.intercalate ", " (fields.map (fun c => ":" ++ c))
      ∧ fieldsCSV [] colon escape = ""
      ∧ FieldsCSV ["id", "name"] = "\"id\", \"name\""
      ∧ FieldsCSVColon ["id", "name"] = ":id, :name" := by
  refine ⟨fieldsCSV_eq_intercalate fields colon escape, ?_, ?_, rfl, by decide, by decide⟩
  · rw [FieldsCSV, fieldsCSV_eq_intercalate]
    congr 1
  · rw [FieldsCSVColon, fieldsCSV_eq_intercalate]
    congr 1

/-- C11: `FieldsSet(fields)` is the `, `-join of `c = :c` over the columns `c`, in
order; the empty list gives the empty string, and
`FieldsSet(["name","description"])` is `name = :name, description = :description`. -/
theorem FieldsSet_is_comma_join (fields : List String) :
    FieldsSet fields = String.intercalate ", " (fields.map (fun c => c ++ " = :" ++ c))
      ∧ FieldsSet [] = ""
      ∧ FieldsSet ["name", "description"] = "name = :name, description = :description" :=
  ⟨FieldsSet_eq_intercalate fields, rfl, by decide⟩

/-- C14: when metadata extraction returns an error (`Fields` for `insert`,
`DBTags` for `update`), `insert` and `update` return a nil result together with
exactly that error and hand no statement to the execution collaborator. -/
theorem extraction_error_is_returned_unexecuted (db : Ext) (e : Entity)
    (skip names : StrSlice) :
    (∀ cols k err, Fields e.value skip = .returns (cols, k, some err) →
      ∃ c, insert db e skip = .returns c
        ∧ c.result = none ∧ c.err = some err ∧ c.executed = [])
    ∧ (∀ cols k err, DBTags e.value names = (cols, k, some err) →
      ∃ c, update db e names = .returns c
        ∧ c.result = none ∧ c.err = some err ∧ c.executed = []) := by
  constructor
  · intro cols k err h
    refine ⟨{ executed := [], result := none, err := some err }, ?_, rfl, rfl, rfl⟩
    unfold insert
    rw [h]
  · intro cols k err h
    refine ⟨{ executed := [], result := none, err := some err }, ?_, rfl, rfl, rfl⟩
    unfold update
    rw [h]

theorem extraction_error_is_returned_unexecuted_witness :
    (∃ c, insert oneRowExt ⟨"notes", .struct [⟨"Note", "note", ""⟩]⟩ none = .returns c
        ∧ c.result = none ∧ c.err = some .fieldsPrimaryKeyNotFound ∧ c.executed = [])
      ∧ (∃ c, update oneRowExt ⟨"notes", .struct [⟨"Note", "note", ""⟩]⟩ (some ["Note"])
          = .returns c
        ∧ c.result = none ∧ c.err = some .dbTagsPrimaryKeyNotFound ∧ c.executed = []) :=
  ⟨(extraction_error_is_returned_unexecuted oneRowExt ⟨"notes", .struct [⟨"Note", "note", ""⟩]⟩
      none (some ["Note"])).1 none "" .fieldsPrimaryKeyNotFound (by decide),
   (extraction_error_is_returned_unexecuted oneRowExt ⟨"notes", .struct [⟨"Note", "note", ""⟩]⟩
      none (some ["Note"])).2 none "" .dbTagsPrimaryKeyNotFound (by decide)⟩

/-- C15: for a flat mapping with string keys (its keys, pairwise distinct, in
whatever order `MapKeys` yields them) and every skip list, `Fields` returns a nil
error, the empty string as key, and a column list that is a rearrangement of
the keys: every key exactly once and nothing else. -/
theorem Fields_of_map_returns_all_keys (values : Value) (keys : List String) (skip : StrSlice)
    (hv : values.deref = .map keys) (hmap : keys.Nodup) :
    ∃ cols, Fields values skip = .returns (some cols, "", none)
      ∧ cols.Perm keys
      ∧ ∀ x, cols.count x = if x ∈ keys then 1 else 0 := by
  refine ⟨keys, ?_, List.Perm.refl _, ?_⟩
  · unfold Fields
    rw [hv]
    simp [Fields_mapLoop_eq]
  · intro x
    by_cases hx : x ∈ keys
    · simp [hx, List.count_eq_one_of_mem hmap hx]
    · simp [hx, List.count_eq_zero_of_not_mem hx]

theorem Fields_of_map_returns_all_keys_witness :
    ∃ cols, Fields (.ptr (.map ["name", "email"])) (some ["name"]) = .returns (some cols, "", none)
      ∧ cols.Perm ["name", "email"]
      ∧ ∀ x, cols.count x = if x ∈ ["name", "email"] then 1 else 0 :=
  Fields_of_map_returns_all_keys (.ptr (.map ["name", "email"])) ["name", "email"]
    (some ["name"]) rfl (by decide)

/-- C16: for a value that, after one pointer dereference, is neither a struct nor
a map, `Fields` returns neither a result nor an error: it panics with the
message `Fields requires a struct or a map, found: <kind>`. -/
theorem Fields_panics_on_unsupported_shape (values : Value) (skip : StrSlice)
    (hs : ∀ fs, values.deref ≠ .struct fs) (hm : ∀ keys, values.deref ≠ .map keys) :
    Fields values skip
        = .panics ("Fields requires a struct or a map, found: " ++ values.deref.kind)
      ∧ ∀ r, Fields values skip ≠ .returns r := by
  have h : Fields values skip
      = .panics ("Fields requires a struct or a map, found: " ++ values.deref.kind) := by
    unfold Fields
    cases hd : values.deref with
    | struct fs => exact absurd hd (hs fs)
    | map keys => exact absurd hd (hm keys)
    | ptr e => rfl
    | nilPtr => rfl
    | other k => rfl
  refine ⟨h, ?_⟩
  intro r hr
  rw [h] at hr
  cases hr

theorem Fields_panics_on_unsupported_shape_witness :
    Fields (.ptr (.ptr (.struct usersFields))) none
        = .panics ("Fields requires a struct or a map, found: "
            ++ (Value.ptr (.ptr (.struct usersFields))).deref.kind)
      ∧ ∀ r, Fields (.ptr (.ptr (.struct usersFields))) none ≠ .returns r :=
  Fields_panics_on_unsupported_shape (.ptr (.ptr (.struct usersFields))) none
    (by intro fs h; cases h) (by intro keys h; cases h)

/-- C18: for a structured record, `Fields` (every skip list) and `DBTags` (every
field-name list) return the missing-primary-key error if and only if no field
qualifies as primary key or the last qualifying field in declaration order has
an empty db column name; whenever they return a nil error, the key is the db
column name of the last qualifying field. -/
theorem missing_key_iff_last_qualifying_column_empty (values : Value) (fs : List Field)
    (hv : values.deref = .struct fs) :
    (∀ skip, Fields values skip = .returns (none, "", some .fieldsPrimaryKeyNotFound) ↔
        (keyFields fs = [] ∨ ∃ last, (keyFields fs).getLast? = some last ∧ last.db = ""))
      ∧ (∀ names, DBTags values names = (none, "", some .dbTagsPrimaryKeyNotFound) ↔
        (keyFields fs = [] ∨ ∃ last, (keyFields fs).getLast? = some last ∧ last.db = ""))
      ∧ (∀ skip cols key, Fields values skip = .returns (cols, key, none) →
        ∃ last, (keyFields fs).getLast? = some last ∧ key = last.db)
      ∧ (∀ names cols key, DBTags values names = (cols, key, none) →
        ∃ last, (keyFields fs).getLast? = some last ∧ key = last.db) := by
  refine ⟨?_, ?_, ?_, ?_⟩
  · intro skip
    rw [← keyColumn_eq_empty_iff, Fields_struct values fs skip hv]
    by_cases hk : keyColumn fs = "" <;> simp [hk]
  · intro names
    rw [← keyColumn_eq_empty_iff, DBTags_struct values fs names hv]
    by_cases hk : keyColumn fs = "" <;> simp [hk]
  · intro skip cols key h
    rw [Fields_struct values fs skip hv] at h
    by_cases hk : keyColumn fs = ""
    · simp [hk] at h
    · simp only [hk, if_false, Outcome.returns.injEq, Prod.mk.injEq, and_true] at h
      obtain ⟨last, h1, h2⟩ := keyColumn_eq_last fs hk
      exact ⟨last, h1, by rw [← h.2, h2]⟩
  · intro names cols key h
    rw [DBTags_struct values fs names hv] at h
    by_cases hk : keyColumn fs = ""
    · simp [hk] at h
    · simp only [hk, if_false, Prod.mk.injEq, and_true] at h
      obtain ⟨last, h1, h2⟩ := keyColumn_eq_last fs hk
      exact ⟨last, h1, by rw [← h.2, h2]⟩

theorem missing_key_iff_last_qualifying_column_empty_witness :
    Fields (.struct [⟨"Uuid", "uuid", "primary_key"⟩, ⟨"ID", "", ""⟩]) none
        = .returns (none, "", some .fieldsPrimaryKeyNotFound)
      ∧ DBTags (.struct [⟨"Uuid", "uuid", "primary_key"⟩, ⟨"ID", "", ""⟩]) (some ["Uuid"])
        = (none, "", some .dbTagsPrimaryKeyNotFound) := by
  have h := missing_key_iff_last_qualifying_column_empty
    (.struct [⟨"Uuid", "uuid", "primary_key"⟩, ⟨"ID", "", ""⟩])
    [⟨"Uuid", "uuid", "primary_key"⟩, ⟨"ID", "", ""⟩] rfl
  exact ⟨(h.1 none).mpr (Or.inr ⟨⟨"ID", "", ""⟩, by decide, rfl⟩),
    (h.2.1 (some ["Uuid"])).mpr (Or.inr ⟨⟨"ID", "", ""⟩, by decide, rfl⟩)⟩

/-- C19: for a structured record and any two skip lists, `Fields` returns the
same key and the same error with both (so it succeeds with one exactly when it
succeeds with the other); the skip list changes the column list only, and a key
that is skipped is left out of the columns while `insert` still names it in the
RETURNING clause. -/
theorem skip_list_changes_columns_only (values : Value) (fs : List Field)
    (hv : values.deref = .struct fs) (s1 s2 : StrSlice) :
    (∃ c1 c2 k err, Fields values s1 = .returns (c1, k, err)
        ∧ Fields values s2 = .returns (c2, k, err))
      ∧ (∀ db e cols k, e.value = values → Fields values s1 = .returns (some cols, k, none) →
          k ∈ s1.elems →
          k ∉ cols ∧ ∃ c, insert db e s1 = .returns c
            ∧ c.executed = ["INSERT INTO " ++ e.tableName ++ " (" ++ FieldsCSV cols
                ++ ") VALUES (" ++ FieldsCSVColon cols ++ ") RETURNING " ++ k]) := by
  constructor
  · rw [Fields_struct values fs s1 hv, Fields_struct values fs s2 hv]
    by_cases hk : keyColumn fs = ""
    · exact ⟨none, none, "", some .fieldsPrimaryKeyNotFound, by simp [hk], by simp [hk]⟩
    · exact ⟨some (insertColumns fs s1), some (insertColumns fs s2), keyColumn fs, none,
        by simp [hk], by simp [hk]⟩
  · intro db e cols k he h hmem
    have h2 := h
    rw [Fields_struct values fs s1 hv] at h2
    by_cases hk : keyColumn fs = ""
    · simp [hk] at h2
    · simp only [hk, if_false, Outcome.returns.injEq, Prod.mk.injEq, and_true,
        Option.some.injEq] at h2
      obtain ⟨hc, _⟩ := h2
      constructor
      · rw [← hc]
        simp only [insertColumns, List.mem_map, List.mem_filter, not_exists, not_and]
        rintro f ⟨_, hf⟩ hdb
        rw [hdb] at hf
        simp [hmem] at hf
      · rw [← he] at h
        have hi := insert_of_Fields db e s1 (some cols) k h
        refine ⟨_, hi, ?_⟩
        cases hq : db.namedQuery (insertStatement e.tableName (StrSlice.elems (some cols)) k) e <;>
          rfl

theorem skip_list_changes_columns_only_witness :
    "id" ∉ ["name", "email"]
      ∧ ∃ c, insert oneRowExt usersEntity (some ["id"]) = .returns c
        ∧ c.executed = ["INSERT INTO " ++ usersEntity.tableName ++ " (" ++ FieldsCSV ["name", "email"]
            ++ ") VALUES (" ++ FieldsCSVColon ["name", "email"] ++ ") RETURNING " ++ "id"] :=
  (skip_list_changes_columns_only (.struct usersFields) usersFields rfl (some ["id"]) none).2
    oneRowExt usersEntity ["name", "email"] "id" rfl (by decide) (by decide)

/-- C20: `SliceContains(a, x)` is true if and only if some element of `a` is
exactly `x`; it is false for the nil slice and for the empty slice, and a
difference of case or of spacing is a difference. -/
theorem SliceContains_iff_some_element_equal (a : StrSlice) (x : String) :
    (SliceContains a x = true ↔ ∃ n ∈ a.elems, n = x)
      ∧ SliceContains none x = false
      ∧ SliceContains (some []) x = false
      ∧ SliceContains (some ["ID", "id "]) "id" = false
      ∧ SliceContains (some ["ID", "id "]) "ID" = true := by
  refine ⟨?_, rfl, rfl, by decide, by decide⟩
  rw [SliceContains_iff_mem]
  simp

/-- C12: when the subscribe command succeeds and the waits deliver the
notifications `ns` before the first wait failure `e`, then for every handler,
whatever errors it returns, `ListenDBEvents` (given more fuel than
notifications) invokes the handler exactly once on each notification's
`(channel, payload)`, in arrival order: the handler is left in the state that
these invocations, and no others, produce from its initial state, and the log
of `Process` calls is the list of those pairs. It makes no wait and no
invocation after the failed wait and returns the error that wraps that
failure. In particular the handler that records its invocations and fails on
every one of them ends with exactly the pairs of `ns`, in order. -/
theorem listener_dispatches_every_notification_in_order {σ : Type} (conn : Conn)
    (processor : ListenProcessor σ) (s : σ) (ns : List Notification) (e : WaitError)
    (fuel : Nat) (hsub : conn.exec "listen events" = none)
    (hw : ∀ j (h : j < ns.length), conn.waitForNotification j = .ok (ns.get ⟨j, h⟩))
    (he : conn.waitForNotification ns.length = .error e) (hfuel : ns.length < fuel) :
    ListenDBEvents fuel conn processor s
        = some { commands := ["listen events"]
                 waits := ns.length + 1
                 processed := ns.map (fun n => (n.Channel, n.Payload))
                 state := ns.foldl (fun st n => (processor.Process st n.Channel n.Payload).1) s
                 err := some (.waiting e) }
      ∧ ∀ seen, ListenDBEvents fuel conn recordingProcessor seen
        = some { commands := ["listen events"]
                 waits := ns.length + 1
                 processed := ns.map (fun n => (n.Channel, n.Payload))
                 state := seen ++ ns.map (fun n => (n.Channel, n.Payload))
                 err := some (.waiting e) } := by
  constructor
  · exact ListenDBEvents_of_subscribed conn processor s ns e fuel hsub hw he hfuel
  · intro seen
    rw [ListenDBEvents_of_subscribed conn recordingProcessor seen ns e fuel hsub hw he hfuel,
      handledInOrder_recording]

theorem listener_dispatches_every_notification_in_order_witness :
    ListenDBEvents 3 (scriptedConn none twoEvents (.failed "connection lost"))
        recordingProcessor []
      = some { commands := ["listen events"]
               waits := 3
               processed := [("events", "first"), ("events", "second")]
               state := [("events", "first"), ("events", "second")]
               err := some (.waiting (.failed "connection lost")) } :=
  (listener_dispatches_every_notification_in_order
    (scriptedConn none twoEvents (.failed "connection lost")) recordingProcessor [] twoEvents
    (.failed "connection lost") 3 rfl
    (by
      intro j h
      have h2 : j < 2 := h
      interval_cases j <;> rfl)
    rfl (by decide)).1

/-- C13, as stated, fails: when the first wait ends because the context is
cancelled, `ListenDBEvents` returns a non-nil error, built like the error of any
other failed wait. -/
theorem cancelled_wait_returns_an_error :
    ListenDBEvents 1 (scriptedConn none [] .cancelled) failingProcessor ()
        = some { commands := ["listen events"], waits := 1, processed := [], state := ()
                 err := some (.waiting .cancelled) }
      ∧ ListenDBEvents 1 (scriptedConn none [] (.failed "connection lost")) failingProcessor ()
        = some { commands := ["listen events"], waits := 1, processed := [], state := ()
                 err := some (.waiting (.failed "connection lost")) } := by
  decide

/-- C13, amended: when the wait that follows the notifications `ns` ends because
the context is cancelled, `ListenDBEvents` (given more fuel than notifications)
terminates, after dispatching `ns`, by returning a non-nil error: the
waiting-for-notification error that wraps the cancellation, which differs from
the error of another wait failure in the wrapped cause only. -/
theorem cancellation_ends_listener_with_wrapped_error {σ : Type} (conn : Conn)
    (processor : ListenProcessor σ) (s : σ) (ns : List Notification) (fuel : Nat)
    (hsub : conn.exec "listen events" = none)
    (hw : ∀ j (h : j < ns.length), conn.waitForNotification j = .ok (ns.get ⟨j, h⟩))
    (hc : conn.waitForNotification ns.length = .error .cancelled) (hfuel : ns.length < fuel) :
    ∃ run, ListenDBEvents fuel conn processor s = some run
      ∧ run.err = some (.waiting .cancelled)
      ∧ run.err ≠ none
      ∧ (∀ msg, run.err ≠ some (.waiting (.failed msg)))
      ∧ run.processed = ns.map (fun n => (n.Channel, n.Payload))
      ∧ run.state = ns.foldl (fun st n => (processor.Process st n.Channel n.Payload).1) s := by
  exact ⟨_, ListenDBEvents_of_subscribed conn processor s ns .cancelled fuel hsub hw hc hfuel,
    rfl, by simp, by simp, rfl, rfl⟩

theorem cancellation_ends_listener_with_wrapped_error_witness :
    ∃ run, ListenDBEvents 3 (scriptedConn none twoEvents .cancelled) recordingProcessor []
        = some run
      ∧ run.err = some (.waiting .cancelled)
      ∧ run.err ≠ none
      ∧ (∀ msg, run.err ≠ some (.waiting (.failed msg)))
      ∧ run.processed = twoEvents.map (fun n => (n.Channel, n.Payload))
      ∧ run.state = twoEvents.foldl
          (fun st n => (recordingProcessor.Process st n.Channel n.Payload).1) [] :=
  cancellation_ends_listener_with_wrapped_error (scriptedConn none twoEvents .cancelled)
    recordingProcessor [] twoEvents 3 rfl
    (by
      intro j h
      have h2 : j < 2 := h
      interval_cases j <;> rfl)
    rfl (by decide)

/-- C17: when the subscribe command fails, `ListenDBEvents` returns, whatever the
fuel, the error that wraps that failure, having issued the command once, waited
for no notification and invoked the handler on nothing (its state is the
initial one). -/
theorem subscribe_failure_ends_listener_at_once {σ : Type} (fuel : Nat) (conn : Conn)
    (processor : ListenProcessor σ) (s : σ) (cause : String)
    (hsub : conn.exec "listen events" = some cause) :
    ListenDBEvents fuel conn processor s
      = some { commands := ["listen events"], waits := 0, processed := [], state := s
               err := some (.listening cause) } := by
  unfold ListenDBEvents
  rw [hsub]

theorem subscribe_failure_ends_listener_at_once_witness :
    ListenDBEvents 0 (scriptedConn (some "permission denied") twoEvents .cancelled)
        recordingProcessor []
      = some { commands := ["listen events"], waits := 0, processed := [], state := []
               err := some (.listening "permission denied") } :=
  subscribe_failure_ends_listener_at_once 0
    (scriptedConn (some "permission denied") twoEvents .cancelled) recordingProcessor []
    "permission denied" rfl

end pgxdb
